import Mathlib

/-!
Shallow embedding of `reservation_system.py`: a hotel/customer/reservation
record manager persisting JSON-encoded lists in flat files.

The file system is modelled as a map from path to `FileContent`: a file is
either absent, present but unreadable/unparsable as JSON (the branch the
source catches as `json.JSONDecodeError` / `IOError`), or present with a
parsed JSON value.  JSON values are the inductive `JVal`; Python dicts are
ordered association lists (insertion order preserved, duplicate keys
resolved last-wins, as `json.load` and dict construction do).  Python
subscripting `r['k']` can raise `KeyError`/`TypeError`, so record access and
the operations built on it return `Except PyErr`.

`FileContent` abstracts file bytes to their parse outcome and is adequate
only for UTF-8-decodable files: an existing file whose bytes are not valid
UTF-8 makes `file.read()` inside `json.load` raise `UnicodeDecodeError`,
which is a `ValueError` but neither `json.JSONDecodeError` nor `IOError`,
so the except clause of `load_data` does not catch it and it propagates to
the caller.  The byte-level model `FileContentU` / `load_dataU` represents
that input class and its escaping exception faithfully.
-/

set_option autoImplicit false

namespace HotelRes

/-- JSON values as produced by `json.load` (numbers restricted to integers,
which is all the program ever stores). -/
inductive JVal where
  | null
  | bool (b : Bool)
  | int (n : Int)
  | str (s : String)
  | arr (elems : List JVal)
  | obj (fields : List (String × JVal))
deriving Repr

/-- A Python exception escaping an operation. -/
inductive PyErr where
  | keyError (key : String)
  | typeError
deriving Repr, DecidableEq

/-- State of one path on disk, at the level of decoded text: `unparsable`
is an existing file whose read or parse raises one of the two exceptions
`load_data` catches (`json.JSONDecodeError`, `IOError`).  An existing file
of non-UTF-8 bytes — on which `load_data` raises an uncaught
`UnicodeDecodeError` — is deliberately not representable here; it is
covered by the byte-level `FileContentU` below. -/
inductive FileContent where
  | missing
  | unparsable
  | valid (v : JVal)
deriving Repr

/-- The file system: content of every path. -/
def FS : Type := String → FileContent

/-- Messages printed by `load_data` (the source prints to stdout). -/
inductive LogMsg where
  | invalidFormat (path : String)
  | readError (path : String)
deriving Repr, DecidableEq

def HOTEL_FILE : String := "hotels.json"
def CUSTOMER_FILE : String := "customers.json"
def RESERVATION_FILE : String := "reservations.json"
def TEST_DATA_FILE : String := "test_data.json"

/-- Lookup in a Python dict built by inserting `fields` in order: the last
binding of a key wins, absent key gives `none` (`dict.get` semantics). -/
def assocGetLast (fields : List (String × JVal)) (key : String) : Option JVal :=
  fields.foldl (fun acc p => if p.1 = key then some p.2 else acc) none

/-- `v.get k`: the value under key `k` when `v` is a dict holding it. -/
def JVal.get (v : JVal) (key : String) : Option JVal :=
  match v with
  | JVal.obj fields => assocGetLast fields key
  | _ => none

/-- Python subscripting `v[key]` with a string key: `KeyError` on a dict
missing the key, `TypeError` on any non-dict value. -/
def JVal.index (v : JVal) (key : String) : Except PyErr JVal :=
  match v with
  | JVal.obj fields =>
    match assocGetLast fields key with
    | some x => Except.ok x
    | none => Except.error (PyErr.keyError key)
  | _ => Except.error PyErr.typeError

/-- Python `v == s` for a string literal `s`: true exactly when `v` is that
string (values of other types never compare equal to a `str`). -/
def JVal.eqStr (v : JVal) (s : String) : Bool :=
  match v with
  | JVal.str t => t = s
  | _ => false

/-- `load_data`, source lines 19-32, together with what it prints: missing
file gives `[]`; `json.JSONDecodeError`/`IOError` is caught, an error line
printed, `[]` returned; a parse to a non-list prints a warning and gives
`[]`; a parsed list is returned as is.  Total because `FileContent` ranges
over UTF-8-decodable files only; `load_dataU` below extends it to the
undecodable files on which `load_data` raises. -/
def load_dataFull (fs : FS) (file_path : String) : List JVal × List LogMsg :=
  match fs file_path with
  | FileContent.missing => ([], [])
  | FileContent.unparsable => ([], [LogMsg.readError file_path])
  | FileContent.valid v =>
    match v with
    | JVal.arr elems => (elems, [])
    | _ => ([], [LogMsg.invalidFormat file_path])

/-- The list `load_data` returns. -/
def load_data (fs : FS) (file_path : String) : List JVal :=
  (load_dataFull fs file_path).1

/-- What `load_data` prints. -/
def load_printed (fs : FS) (file_path : String) : List LogMsg :=
  (load_dataFull fs file_path).2

/-- `save_data`, source lines 35-38: `json.dump` overwrites `file_path`
with the serialization of `data`; every other path is untouched. -/
def save_data (fs : FS) (file_path : String) (data : JVal) : FS :=
  fun p => if p = file_path then FileContent.valid data else fs p

/-- The result of `load_test_data`: one entry per seed key. -/
structure TestData where
  hotels : JVal
  customers : JVal
  reservations : JVal
deriving Repr

/-- `test_data.get(key, [])`: the value stored under `key`, or an empty
array when the key is absent. -/
def objGetD (fields : List (String × JVal)) (key : String) : JVal :=
  match assocGetLast fields key with
  | some v => v
  | none => JVal.arr []

/-- `load_test_data`, source lines 41-55: a seed file parsing to a dict
yields its `hotels`/`customers`/`reservations` entries with `[]` defaults;
a missing file (`IOError`), an unparsable one (`json.JSONDecodeError`) or a
non-dict root (the raised-and-caught `ValueError`) yields empty defaults. -/
def load_test_data (fs : FS) : TestData :=
  match fs TEST_DATA_FILE with
  | FileContent.missing => ⟨JVal.arr [], JVal.arr [], JVal.arr []⟩
  | FileContent.unparsable => ⟨JVal.arr [], JVal.arr [], JVal.arr []⟩
  | FileContent.valid v =>
    match v with
    | JVal.obj fields =>
      ⟨objGetD fields "hotels", objGetD fields "customers",
        objGetD fields "reservations"⟩
    | _ => ⟨JVal.arr [], JVal.arr [], JVal.arr []⟩

/-- A Python list comprehension `[x for x in xs if p(x)]` whose condition
may raise: elements are tested left to right and the first exception
escapes the whole comprehension. -/
def filterExcept (p : JVal → Except PyErr Bool) : List JVal → Except PyErr (List JVal)
  | [] => Except.ok []
  | x :: xs => do
    let b ← p x
    let rest ← filterExcept p xs
    if b then Except.ok (x :: rest) else Except.ok rest

/-- The `Hotel` class, source lines 58-64: `__init__` stores the four
attributes in order, with `available_rooms` initialized to `rooms`. -/
structure Hotel where
  name : String
  location : String
  rooms : Int
  available_rooms : Int
deriving Repr

/-- `Hotel.__init__`, source lines 60-64. -/
def Hotel.init (name location : String) (rooms : Int) : Hotel :=
  ⟨name, location, rooms, rooms⟩

/-- `Hotel.to_dict`, source lines 66-68: `self.__dict__`, whose keys appear
in attribute-assignment order. -/
def Hotel.to_dict (h : Hotel) : JVal :=
  JVal.obj [("name", JVal.str h.name), ("location", JVal.str h.location),
    ("rooms", JVal.int h.rooms), ("available_rooms", JVal.int h.available_rooms)]

/-- `Hotel.create_hotel`, source lines 70-75: load, append, save. -/
def create_hotel (fs : FS) (name location : String) (rooms : Int) : FS :=
  let hotels := load_data fs HOTEL_FILE
  save_data fs HOTEL_FILE (JVal.arr (hotels ++ [(Hotel.init name location rooms).to_dict]))

/-- `Hotel.delete_hotel`, source lines 77-81: keep the records `h` with
`h['name'] != name`, save the result. -/
def delete_hotel (fs : FS) (name : String) : Except PyErr FS := do
  let hotels ← filterExcept
    (fun h => (JVal.index h "name").map (fun v => !(v.eqStr name)))
    (load_data fs HOTEL_FILE)
  Except.ok (save_data fs HOTEL_FILE (JVal.arr hotels))

/-- The scanning loop of `Hotel.get_hotel`: first record whose `name` field
equals the argument, else the empty dict after the loop. -/
def get_hotel_scan (name : String) : List JVal → Except PyErr JVal
  | [] => Except.ok (JVal.obj [])
  | h :: rest => do
    let v ← JVal.index h "name"
    if v.eqStr name then Except.ok h else get_hotel_scan name rest

/-- `Hotel.get_hotel`, source lines 83-89. -/
def get_hotel (fs : FS) (name : String) : Except PyErr JVal :=
  get_hotel_scan name (load_data fs HOTEL_FILE)

/-- `Customer.to_dict`, source lines 92-100: `{'name': ..., 'email': ...}`. -/
def Customer.to_dict (name email : String) : JVal :=
  JVal.obj [("name", JVal.str name), ("email", JVal.str email)]

/-- `Customer.create_customer`, source lines 102-107. -/
def create_customer (fs : FS) (name email : String) : FS :=
  let customers := load_data fs CUSTOMER_FILE
  save_data fs CUSTOMER_FILE (JVal.arr (customers ++ [Customer.to_dict name email]))

/-- `Customer.delete_customer`, source lines 109-113. -/
def delete_customer (fs : FS) (name : String) : Except PyErr FS := do
  let customers ← filterExcept
    (fun c => (JVal.index c "name").map (fun v => !(v.eqStr name)))
    (load_data fs CUSTOMER_FILE)
  Except.ok (save_data fs CUSTOMER_FILE (JVal.arr customers))

/-- `Customer.get_customer`, source lines 115-121. -/
def get_customer (fs : FS) (name : String) : Except PyErr JVal :=
  get_hotel_scan name (load_data fs CUSTOMER_FILE)

/-- `Reservation.to_dict`, source lines 124-133. -/
def Reservation.to_dict (customer hotel : String) : JVal :=
  JVal.obj [("customer", JVal.str customer), ("hotel", JVal.str hotel)]

/-- `Reservation.create_reservation`, source lines 135-140. -/
def create_reservation (fs : FS) (customer hotel : String) : FS :=
  let reservations := load_data fs RESERVATION_FILE
  save_data fs RESERVATION_FILE (JVal.arr (reservations ++ [Reservation.to_dict customer hotel]))

/-- The condition `r['customer'] == customer and r['hotel'] == hotel` of
`cancel_reservation`: Python `and` short-circuits, so `r['hotel']` is only
evaluated when the customer field matched. -/
def reservationMatches (customer hotel : String) (r : JVal) : Except PyErr Bool := do
  let c ← JVal.index r "customer"
  if c.eqStr customer then do
    let h ← JVal.index r "hotel"
    Except.ok (h.eqStr hotel)
  else Except.ok false

/-- `Reservation.cancel_reservation`, source lines 142-149: keep the
records not matching both fields, save the result. -/
def cancel_reservation (fs : FS) (customer hotel : String) : Except PyErr FS := do
  let reservations ← filterExcept
    (fun r => (reservationMatches customer hotel r).map (fun b => !b))
    (load_data fs RESERVATION_FILE)
  Except.ok (save_data fs RESERVATION_FILE (JVal.arr reservations))

/-- `Reservation.get_reservations`, source lines 151-154. -/
def get_reservations (fs : FS) : List JVal :=
  load_data fs RESERVATION_FILE

/-- Every state-visible operation the system offers, for frame properties
quantifying over "any operation". -/
inductive Op where
  | createHotel (name location : String) (rooms : Int)
  | deleteHotel (name : String)
  | getHotel (name : String)
  | createCustomer (name email : String)
  | deleteCustomer (name : String)
  | getCustomer (name : String)
  | createReservation (customer hotel : String)
  | cancelReservation (customer hotel : String)
  | getReservations

/-- Run one operation against the file system, yielding the new file
system (read-only operations leave it unchanged; an operation that raises
yields the error). -/
def Op.run (op : Op) (fs : FS) : Except PyErr FS :=
  match op with
  | Op.createHotel n l r => Except.ok (create_hotel fs n l r)
  | Op.deleteHotel n => delete_hotel fs n
  | Op.getHotel n => (get_hotel fs n).map (fun _ => fs)
  | Op.createCustomer n e => Except.ok (create_customer fs n e)
  | Op.deleteCustomer n => delete_customer fs n
  | Op.getCustomer n => (get_customer fs n).map (fun _ => fs)
  | Op.createReservation c h => Except.ok (create_reservation fs c h)
  | Op.cancelReservation c h => cancel_reservation fs c h
  | Op.getReservations => Except.ok fs

/-- The record `r` is a dict holding key `k`. -/
def hasKey (r : JVal) (k : String) : Bool :=
  (r.get k).isSome

/-- The record `r` has a field `k` equal to the string `s`. -/
def fieldEqStr (r : JVal) (k s : String) : Bool :=
  match r.get k with
  | some v => v.eqStr s
  | none => false

/-- Byte-level state of one path on disk, refining `FileContent`:
`undecodable` is an existing file whose bytes do not decode as UTF-8,
`unreadable` an OS-level read failure (`IOError`), `unparsableText` text
that is not valid JSON (`json.JSONDecodeError`). -/
inductive FileContentU where
  | missing
  | undecodable
  | unreadable
  | unparsableText
  | valid (v : JVal)
deriving Repr

/-- The file system at byte level. -/
def FSU : Type := String → FileContentU

/-- An exception escaping `load_data` itself: `UnicodeDecodeError` is a
`ValueError` but neither `json.JSONDecodeError` nor `IOError`, so the
except clause of source lines 30-32 does not catch it. -/
inductive LoadErr where
  | unicodeDecodeError
deriving Repr, DecidableEq

/-- `load_data`, source lines 19-32, over the byte-level file model: the
missing, read-failure, parse-failure and non-list cases return `[]` as in
`load_dataFull`, but a file of non-UTF-8 bytes raises `UnicodeDecodeError`
out of `json.load(file)` to the caller. -/
def load_dataU (fs : FSU) (file_path : String) :
    Except LoadErr (List JVal × List LogMsg) :=
  match fs file_path with
  | FileContentU.missing => Except.ok ([], [])
  | FileContentU.undecodable => Except.error LoadErr.unicodeDecodeError
  | FileContentU.unreadable => Except.ok ([], [LogMsg.readError file_path])
  | FileContentU.unparsableText => Except.ok ([], [LogMsg.readError file_path])
  | FileContentU.valid v =>
    match v with
    | JVal.arr elems => Except.ok (elems, [])
    | _ => Except.ok ([], [LogMsg.invalidFormat file_path])

/-- A byte-level file system holding one existing hotel file whose bytes
are not valid UTF-8 (for instance a file containing the byte 0xFF). -/
def fsUndecodable : FSU :=
  fun p => if p = HOTEL_FILE then FileContentU.undecodable else FileContentU.missing

/-- A file system with no files, for concrete instantiations. -/
def fsEmpty : FS := fun _ => FileContent.missing

/-- A concrete stored hotel list with a duplicated name. -/
def sampleHotels : List JVal :=
  [(Hotel.init "Hotel Pucon" "Chile" 15).to_dict,
   (Hotel.init "Hotel Andino" "Peru" 8).to_dict,
   (Hotel.init "Hotel Pucon" "Chile" 15).to_dict]

/-- A file system storing `sampleHotels`. -/
def fsHotels : FS := save_data fsEmpty HOTEL_FILE (JVal.arr sampleHotels)

/-- A concrete stored reservation list with a duplicated pair. -/
def sampleReservations : List JVal :=
  [Reservation.to_dict "Pryha Terima" "Hotel Ankor Wat",
   Reservation.to_dict "Ardash Hdez" "Hotel Pucon",
   Reservation.to_dict "Pryha Terima" "Hotel Ankor Wat"]

/-- A file system storing `sampleReservations`. -/
def fsReservations : FS := save_data fsEmpty RESERVATION_FILE (JVal.arr sampleReservations)

/-- A concrete seed-file root: a dict with a `hotels` entry, an empty
`customers` entry and no `reservations` entry. -/
def seedFields : List (String × JVal) :=
  [("hotels", JVal.arr [(Hotel.init "Hotel Pucon" "Chile" 15).to_dict]),
   ("customers", JVal.arr [])]

/-- A file system whose seed file parses to `JVal.obj seedFields`. -/
def fsSeed : FS :=
  fun p => if p = TEST_DATA_FILE then FileContent.valid (JVal.obj seedFields)
    else FileContent.missing

theorem load_save (fs : FS) (path : String) (xs : List JVal) :
    load_data (save_data fs path (JVal.arr xs)) path = xs := by
  simp [load_data, load_dataFull, save_data]

theorem load_save_ne (fs : FS) (path p : String) (v : JVal) (h : p ≠ path) :
    load_data (save_data fs path v) p = load_data fs p := by
  simp [load_data, load_dataFull, save_data, h]

theorem index_eq_ok_of_get (r : JVal) (k : String) (v : JVal)
    (h : r.get k = some v) : r.index k = Except.ok v := by
  cases r <;> simp_all [JVal.get, JVal.index]

theorem exists_get_of_hasKey (r : JVal) (k : String) (h : hasKey r k = true) :
    ∃ v, r.get k = some v := by
  simpa [hasKey, Option.isSome_iff_exists] using h

theorem filterExcept_eq_filter (p : JVal → Except PyErr Bool) (pb : JVal → Bool)
    (xs : List JVal) (h : ∀ x ∈ xs, p x = Except.ok (pb x)) :
    filterExcept p xs = Except.ok (xs.filter pb) := by
  induction xs with
  | nil => rfl
  | cons x xs ih =>
    have hx : p x = Except.ok (pb x) := h x (by simp)
    have ht := ih (fun y hy => h y (by simp [hy]))
    by_cases hb : pb x = true <;>
      simp [filterExcept, hx, ht, List.filter, hb, Bind.bind, Except.bind]

theorem mem_of_filterExcept (p : JVal → Except PyErr Bool) (xs out : List JVal)
    (h : filterExcept p xs = Except.ok out) : ∀ r ∈ out, r ∈ xs := by
  induction xs generalizing out with
  | nil =>
    simp [filterExcept] at h
    simp [← h]
  | cons x xs ih =>
    cases hpx : p x with
    | error e => simp [filterExcept, hpx, Bind.bind, Except.bind] at h
    | ok b =>
      cases hrest : filterExcept p xs with
      | error e => simp [filterExcept, hpx, hrest, Bind.bind, Except.bind] at h
      | ok rest =>
        have hr := ih rest hrest
        cases b with
        | true =>
          simp [filterExcept, hpx, hrest, Bind.bind, Except.bind] at h
          intro r hrmem
          rw [← h] at hrmem
          rcases List.mem_cons.mp hrmem with heq | hmem
          · exact List.mem_cons.mpr (Or.inl heq)
          · exact List.mem_cons.mpr (Or.inr (hr r hmem))
        | false =>
          simp [filterExcept, hpx, hrest, Bind.bind, Except.bind] at h
          intro r hrmem
          rw [← h] at hrmem
          exact List.mem_cons.mpr (Or.inr (hr r hrmem))

theorem get_hotel_scan_eq_find (name : String) (xs : List JVal)
    (h : ∀ x ∈ xs, hasKey x "name" = true) :
    get_hotel_scan name xs =
      Except.ok ((xs.find? (fun r => fieldEqStr r "name" name)).getD (JVal.obj [])) := by
  induction xs with
  | nil => rfl
  | cons x xs ih =>
    obtain ⟨v, hv⟩ := exists_get_of_hasKey x "name" (h x (by simp))
    have hidx := index_eq_ok_of_get x "name" v hv
    have hfe : fieldEqStr x "name" name = v.eqStr name := by
      simp [fieldEqStr, hv]
    have ht := ih (fun y hy => h y (by simp [hy]))
    by_cases hb : v.eqStr name = true <;>
      simp [get_hotel_scan, hidx, ht, List.find?, hfe, hb, Bind.bind, Except.bind]

theorem namePred_ok (name : String) (r : JVal) (h : hasKey r "name" = true) :
    (JVal.index r "name").map (fun v => !(v.eqStr name)) =
      Except.ok (!(fieldEqStr r "name" name)) := by
  obtain ⟨v, hv⟩ := exists_get_of_hasKey r "name" h
  simp [index_eq_ok_of_get r "name" v hv, fieldEqStr, hv, Except.map]

theorem delete_hotel_ok (fs : FS) (name : String)
    (h : ∀ r ∈ load_data fs HOTEL_FILE, hasKey r "name" = true) :
    delete_hotel fs name = Except.ok (save_data fs HOTEL_FILE
      (JVal.arr ((load_data fs HOTEL_FILE).filter
        (fun r => !(fieldEqStr r "name" name))))) := by
  have hfe := filterExcept_eq_filter
    (fun r => (JVal.index r "name").map (fun v => !(v.eqStr name)))
    (fun r => !(fieldEqStr r "name" name))
    (load_data fs HOTEL_FILE)
    (fun r hr => namePred_ok name r (h r hr))
  simp [delete_hotel, hfe, Bind.bind, Except.bind]

theorem cancelPred_ok (customer hotel : String) (r : JVal)
    (hc : hasKey r "customer" = true) (hh : hasKey r "hotel" = true) :
    (reservationMatches customer hotel r).map (fun b => !b) =
      Except.ok (!(fieldEqStr r "customer" customer && fieldEqStr r "hotel" hotel)) := by
  obtain ⟨vc, hvc⟩ := exists_get_of_hasKey r "customer" hc
  obtain ⟨vh, hvh⟩ := exists_get_of_hasKey r "hotel" hh
  by_cases hb : vc.eqStr customer = true <;>
    simp [reservationMatches, index_eq_ok_of_get r "customer" vc hvc,
      index_eq_ok_of_get r "hotel" vh hvh, fieldEqStr, hvc, hvh, hb,
      Bind.bind, Except.bind, Except.map]

theorem cancel_reservation_ok (fs : FS) (customer hotel : String)
    (h : ∀ r ∈ load_data fs RESERVATION_FILE,
      hasKey r "customer" = true ∧ hasKey r "hotel" = true) :
    cancel_reservation fs customer hotel = Except.ok (save_data fs RESERVATION_FILE
      (JVal.arr ((load_data fs RESERVATION_FILE).filter
        (fun r => !(fieldEqStr r "customer" customer && fieldEqStr r "hotel" hotel))))) := by
  have hfe := filterExcept_eq_filter
    (fun r => (reservationMatches customer hotel r).map (fun b => !b))
    (fun r => !(fieldEqStr r "customer" customer && fieldEqStr r "hotel" hotel))
    (load_data fs RESERVATION_FILE)
    (fun r hr => cancelPred_ok customer hotel r (h r hr).1 (h r hr).2)
  simp [cancel_reservation, hfe, Bind.bind, Except.bind]

theorem get_hotel_ok (fs : FS) (name : String)
    (h : ∀ r ∈ load_data fs HOTEL_FILE, hasKey r "name" = true) :
    get_hotel fs name = Except.ok
      (((load_data fs HOTEL_FILE).find?
        (fun r => fieldEqStr r "name" name)).getD (JVal.obj [])) :=
  get_hotel_scan_eq_find name (load_data fs HOTEL_FILE) h

/-- Claim C1: for every path and every list of records, `save_data` on that
path followed by `load_data` on the same path returns exactly the saved
sequence (round-trip law; the model keeps each record's key order, so
equality here is in particular equality up to key order).  `load_data` and
`save_data` are total, so no exception is involved. -/
theorem spec_c1_save_load_roundtrip (fs : FS) (path : String) (records : List JVal) :
    load_data (save_data fs path (JVal.arr records)) path = records :=
  load_save fs path records

/-- Claim C2 (code bug): an existing file whose bytes are not valid UTF-8
has contents that fail to parse as valid JSON, yet `load_data` does not
return the empty sequence on it: `json.load(file)` raises
`UnicodeDecodeError`, the except clause of source lines 30-32 catches only
`json.JSONDecodeError` and `IOError`, and the exception propagates to the
caller — against the function's own docstring, "If file is missing or
invalid, return []".  Evaluated at the concrete failing input
`fsUndecodable`: the load raises and returns no value at all. -/
theorem spec_c2_load_undecodable_raises :
    fsUndecodable HOTEL_FILE = FileContentU.undecodable ∧
    load_dataU fsUndecodable HOTEL_FILE = Except.error LoadErr.unicodeDecodeError ∧
    ∀ res, load_dataU fsUndecodable HOTEL_FILE ≠ Except.ok res := by
  refine ⟨rfl, rfl, ?_⟩
  intro res h
  simp [load_dataU, fsUndecodable] at h

/-- Claim C3: on a path that names no existing file, `load_data` returns
the empty sequence and prints nothing (no error is reported). -/
theorem spec_c3_load_missing_silent (fs : FS) (path : String)
    (h : fs path = FileContent.missing) :
    load_data fs path = [] ∧ load_printed fs path = [] := by
  simp [load_data, load_printed, load_dataFull, h]

/-- Witness for C3 on the empty file system. -/
theorem spec_c3_witness :
    fsEmpty "hotels.json" = FileContent.missing ∧
    load_data fsEmpty "hotels.json" = [] ∧ load_printed fsEmpty "hotels.json" = [] :=
  ⟨rfl, spec_c3_load_missing_silent fsEmpty "hotels.json" rfl⟩

/-- Claim C4: when every stored hotel record carries a `name` field,
`delete_hotel name` saves exactly the subsequence of records whose `name`
field differs from `name`: all exact matches (duplicates included) are
dropped and all others kept, in order. -/
theorem spec_c4_delete_hotel_filters (fs : FS) (name : String)
    (h : ∀ r ∈ load_data fs HOTEL_FILE, hasKey r "name" = true) :
    delete_hotel fs name = Except.ok (save_data fs HOTEL_FILE
      (JVal.arr ((load_data fs HOTEL_FILE).filter
        (fun r => !(fieldEqStr r "name" name))))) :=
  delete_hotel_ok fs name h

/-- Witness for C4: deleting `"Hotel Pucon"` from a store that holds it
twice removes both copies and keeps the other record. -/
theorem spec_c4_witness :
    (∀ r ∈ load_data fsHotels HOTEL_FILE, hasKey r "name" = true) ∧
    delete_hotel fsHotels "Hotel Pucon" = Except.ok (save_data fsHotels HOTEL_FILE
      (JVal.arr ((load_data fsHotels HOTEL_FILE).filter
        (fun r => !(fieldEqStr r "name" "Hotel Pucon"))))) ∧
    (load_data fsHotels HOTEL_FILE).filter
        (fun r => !(fieldEqStr r "name" "Hotel Pucon"))
      = [(Hotel.init "Hotel Andino" "Peru" 8).to_dict] :=
  ⟨by decide, spec_c4_delete_hotel_filters fsHotels "Hotel Pucon" (by decide), rfl⟩

/-- Claim C5: when every stored reservation record carries `customer` and
`hotel` fields, `cancel_reservation customer hotel` saves exactly the
records that do not match both fields: every record matching the pair
(duplicates included) is removed and every record differing in at least
one field is kept. -/
theorem spec_c5_cancel_filters_pair (fs : FS) (customer hotel : String)
    (h : ∀ r ∈ load_data fs RESERVATION_FILE,
      hasKey r "customer" = true ∧ hasKey r "hotel" = true) :
    cancel_reservation fs customer hotel = Except.ok (save_data fs RESERVATION_FILE
      (JVal.arr ((load_data fs RESERVATION_FILE).filter
        (fun r => !(fieldEqStr r "customer" customer &&
          fieldEqStr r "hotel" hotel))))) :=
  cancel_reservation_ok fs customer hotel h

/-- Witness for C5: cancelling a pair stored twice removes both matching
records and keeps the one differing in both fields. -/
theorem spec_c5_witness :
    (∀ r ∈ load_data fsReservations RESERVATION_FILE,
      hasKey r "customer" = true ∧ hasKey r "hotel" = true) ∧
    cancel_reservation fsReservations "Pryha Terima" "Hotel Ankor Wat"
      = Except.ok (save_data fsReservations RESERVATION_FILE
        (JVal.arr ((load_data fsReservations RESERVATION_FILE).filter
          (fun r => !(fieldEqStr r "customer" "Pryha Terima" &&
            fieldEqStr r "hotel" "Hotel Ankor Wat"))))) ∧
    (load_data fsReservations RESERVATION_FILE).filter
        (fun r => !(fieldEqStr r "customer" "Pryha Terima" &&
          fieldEqStr r "hotel" "Hotel Ankor Wat"))
      = [Reservation.to_dict "Ardash Hdez" "Hotel Pucon"] :=
  ⟨by decide,
    spec_c5_cancel_filters_pair fsReservations "Pryha Terima" "Hotel Ankor Wat" (by decide),
    rfl⟩

/-- Claim C6: `create_hotel` appends one record to the stored sequence,
keeping the previous records in order (so the length grows by one), and
the new record has the given `name` and `location`, `rooms` equal to the
argument and `available_rooms` equal to `rooms`.  No duplicate-name check
is made: the statement holds for every prior store. -/
theorem spec_c6_create_hotel_appends (fs : FS) (name location : String) (rooms : Int) :
    load_data (create_hotel fs name location rooms) HOTEL_FILE
      = load_data fs HOTEL_FILE ++ [(Hotel.init name location rooms).to_dict]
    ∧ (load_data (create_hotel fs name location rooms) HOTEL_FILE).length
      = (load_data fs HOTEL_FILE).length + 1
    ∧ JVal.get (Hotel.init name location rooms).to_dict "name" = some (JVal.str name)
    ∧ JVal.get (Hotel.init name location rooms).to_dict "location" = some (JVal.str location)
    ∧ JVal.get (Hotel.init name location rooms).to_dict "rooms" = some (JVal.int rooms)
    ∧ JVal.get (Hotel.init name location rooms).to_dict "available_rooms"
      = some (JVal.int rooms) := by
  have h1 : load_data (create_hotel fs name location rooms) HOTEL_FILE
      = load_data fs HOTEL_FILE ++ [(Hotel.init name location rooms).to_dict] := by
    simp [create_hotel, load_save]
  exact ⟨h1, by simp [h1], rfl, rfl, rfl, rfl⟩

/-- Claim C7: when every stored hotel record carries a `name` field,
`get_hotel name` returns the first stored record whose `name` field equals
`name`, and the empty dict when no record matches (`List.find?` returns
the first match in stored order). -/
theorem spec_c7_get_hotel_first_match (fs : FS) (name : String)
    (h : ∀ r ∈ load_data fs HOTEL_FILE, hasKey r "name" = true) :
    get_hotel fs name = Except.ok
      (((load_data fs HOTEL_FILE).find?
        (fun r => fieldEqStr r "name" name)).getD (JVal.obj [])) :=
  get_hotel_ok fs name h

/-- Witness for C7: looking up a stored name yields the first matching
record; the concrete `find?` evaluates to that record. -/
theorem spec_c7_witness :
    (∀ r ∈ load_data fsHotels HOTEL_FILE, hasKey r "name" = true) ∧
    get_hotel fsHotels "Hotel Andino" = Except.ok
      (((load_data fsHotels HOTEL_FILE).find?
        (fun r => fieldEqStr r "name" "Hotel Andino")).getD (JVal.obj [])) ∧
    ((load_data fsHotels HOTEL_FILE).find?
        (fun r => fieldEqStr r "name" "Hotel Andino")).getD (JVal.obj [])
      = (Hotel.init "Hotel Andino" "Peru" 8).to_dict :=
  ⟨by decide, spec_c7_get_hotel_first_match fsHotels "Hotel Andino" (by decide), rfl⟩

/-- Claim C8: after any operation of the system, every record in the hotel
store is either one of the previously stored records, unchanged (so its
`available_rooms` field is untouched), or the record freshly created by
that operation, whose `available_rooms` equals its `rooms`.  No create,
delete, get or reservation operation ever increments or decrements
`available_rooms`. -/
theorem spec_c8_available_rooms_never_updated (op : Op) (fs fs' : FS)
    (h : op.run fs = Except.ok fs') :
    ∀ r ∈ load_data fs' HOTEL_FILE,
      r ∈ load_data fs HOTEL_FILE ∨
      ∃ n l rm, r = (Hotel.init n l rm).to_dict ∧
        JVal.get r "available_rooms" = some (JVal.int rm) ∧
        JVal.get r "rooms" = some (JVal.int rm) := by
  cases op with
  | createHotel n l rm =>
    have hfs : fs' = create_hotel fs n l rm := by
      simpa [Op.run] using h.symm
    subst hfs
    intro r hr
    have hload : load_data (create_hotel fs n l rm) HOTEL_FILE
        = load_data fs HOTEL_FILE ++ [(Hotel.init n l rm).to_dict] := by
      simp [create_hotel, load_save]
    rw [hload] at hr
    rcases List.mem_append.mp hr with hold | hnew
    · exact Or.inl hold
    · obtain rfl : r = (Hotel.init n l rm).to_dict := by simpa using hnew
      exact Or.inr ⟨n, l, rm, rfl, rfl, rfl⟩
  | deleteHotel n =>
    simp only [Op.run] at h
    cases hout : filterExcept
        (fun x => (JVal.index x "name").map (fun v => !(v.eqStr n)))
        (load_data fs HOTEL_FILE) with
    | error e => simp [delete_hotel, hout, Bind.bind, Except.bind] at h
    | ok out =>
      have hfs : fs' = save_data fs HOTEL_FILE (JVal.arr out) := by
        simpa [delete_hotel, hout, Bind.bind, Except.bind] using h.symm
      subst hfs
      intro r hr
      rw [load_save] at hr
      exact Or.inl (mem_of_filterExcept _ _ _ hout r hr)
  | getHotel n =>
    simp only [Op.run] at h
    cases hg : get_hotel fs n with
    | error e => simp [hg, Except.map] at h
    | ok v =>
      have hfs : fs' = fs := by simpa [hg, Except.map] using h.symm
      subst hfs
      exact fun r hr => Or.inl hr
  | createCustomer nm em =>
    have hfs : fs' = create_customer fs nm em := by
      simpa [Op.run] using h.symm
    subst hfs
    intro r hr
    have hload : load_data (create_customer fs nm em) HOTEL_FILE
        = load_data fs HOTEL_FILE := by
      simp only [create_customer]
      exact load_save_ne fs CUSTOMER_FILE HOTEL_FILE _ (by decide)
    rw [hload] at hr
    exact Or.inl hr
  | deleteCustomer nm =>
    simp only [Op.run] at h
    cases hout : filterExcept
        (fun x => (JVal.index x "name").map (fun v => !(v.eqStr nm)))
        (load_data fs CUSTOMER_FILE) with
    | error e => simp [delete_customer, hout, Bind.bind, Except.bind] at h
    | ok out =>
      have hfs : fs' = save_data fs CUSTOMER_FILE (JVal.arr out) := by
        simpa [delete_customer, hout, Bind.bind, Except.bind] using h.symm
      subst hfs
      intro r hr
      rw [load_save_ne fs CUSTOMER_FILE HOTEL_FILE _ (by decide)] at hr
      exact Or.inl hr
  | getCustomer nm =>
    simp only [Op.run] at h
    cases hg : get_customer fs nm with
    | error e => simp [hg, Except.map] at h
    | ok v =>
      have hfs : fs' = fs := by simpa [hg, Except.map] using h.symm
      subst hfs
      exact fun r hr => Or.inl hr
  | createReservation c ht =>
    have hfs : fs' = create_reservation fs c ht := by
      simpa [Op.run] using h.symm
    subst hfs
    intro r hr
    have hload : load_data (create_reservation fs c ht) HOTEL_FILE
        = load_data fs HOTEL_FILE := by
      simp only [create_reservation]
      exact load_save_ne fs RESERVATION_FILE HOTEL_FILE _ (by decide)
    rw [hload] at hr
    exact Or.inl hr
  | cancelReservation c ht =>
    simp only [Op.run] at h
    cases hout : filterExcept
        (fun r => (reservationMatches c ht r).map (fun b => !b))
        (load_data fs RESERVATION_FILE) with
    | error e => simp [cancel_reservation, hout, Bind.bind, Except.bind] at h
    | ok out =>
      have hfs : fs' = save_data fs RESERVATION_FILE (JVal.arr out) := by
        simpa [cancel_reservation, hout, Bind.bind, Except.bind] using h.symm
      subst hfs
      intro r hr
      rw [load_save_ne fs RESERVATION_FILE HOTEL_FILE _ (by decide)] at hr
      exact Or.inl hr
  | getReservations =>
    have hfs : fs' = fs := by simpa [Op.run] using h.symm
    subst hfs
    exact fun r hr => Or.inl hr

/-- Witness for C8: creating a hotel on the empty store leaves exactly one
record, the freshly created one with `available_rooms = rooms`. -/
theorem spec_c8_witness :
    (Op.createHotel "Hotel Pucon" "Chile" 15).run fsEmpty
      = Except.ok (create_hotel fsEmpty "Hotel Pucon" "Chile" 15) ∧
    ∀ r ∈ load_data (create_hotel fsEmpty "Hotel Pucon" "Chile" 15) HOTEL_FILE,
      r ∈ load_data fsEmpty HOTEL_FILE ∨
      ∃ n l rm, r = (Hotel.init n l rm).to_dict ∧
        JVal.get r "available_rooms" = some (JVal.int rm) ∧
        JVal.get r "rooms" = some (JVal.int rm) :=
  ⟨rfl, spec_c8_available_rooms_never_updated
    (Op.createHotel "Hotel Pucon" "Chile" 15) fsEmpty
    (create_hotel fsEmpty "Hotel Pucon" "Chile" 15) rfl⟩

/-- Claim C9: a seed file whose root parses as a JSON object yields the
values under `hotels`/`customers`/`reservations` with an empty array
substituted for each missing key; a seed file whose root is not an object
(or does not parse, or is absent) yields three empty arrays. -/
theorem spec_c9_load_test_data_shape (fs : FS) :
    (∀ fields, fs TEST_DATA_FILE = FileContent.valid (JVal.obj fields) →
      load_test_data fs = ⟨objGetD fields "hotels", objGetD fields "customers",
        objGetD fields "reservations"⟩ ∧
      (assocGetLast fields "hotels" = none → objGetD fields "hotels" = JVal.arr []) ∧
      (assocGetLast fields "customers" = none → objGetD fields "customers" = JVal.arr []) ∧
      (assocGetLast fields "reservations" = none →
        objGetD fields "reservations" = JVal.arr [])) ∧
    ((∀ fields, fs TEST_DATA_FILE ≠ FileContent.valid (JVal.obj fields)) →
      load_test_data fs = ⟨JVal.arr [], JVal.arr [], JVal.arr []⟩) := by
  constructor
  · intro fields hf
    refine ⟨by simp [load_test_data, hf], ?_, ?_, ?_⟩ <;>
      (intro hnone; simp [objGetD, hnone])
  · intro hno
    cases hc : fs TEST_DATA_FILE with
    | missing => simp [load_test_data, hc]
    | unparsable => simp [load_test_data, hc]
    | valid v =>
      cases v with
      | obj fields => exact absurd hc (hno fields)
      | null => simp [load_test_data, hc]
      | bool b => simp [load_test_data, hc]
      | int n => simp [load_test_data, hc]
      | str s => simp [load_test_data, hc]
      | arr xs => simp [load_test_data, hc]

/-- Witness for C9: a seed file with a `hotels` entry, an empty `customers`
entry and no `reservations` key loads as those two values plus an empty
array for the missing key. -/
theorem spec_c9_witness :
    fsSeed TEST_DATA_FILE = FileContent.valid (JVal.obj seedFields) ∧
    load_test_data fsSeed = ⟨objGetD seedFields "hotels",
      objGetD seedFields "customers", objGetD seedFields "reservations"⟩ ∧
    load_test_data fsSeed = ⟨JVal.arr [(Hotel.init "Hotel Pucon" "Chile" 15).to_dict],
      JVal.arr [], JVal.arr []⟩ :=
  ⟨rfl, ((spec_c9_load_test_data_shape fsSeed).1 seedFields rfl).1, rfl⟩

/-- Claim C10: when every stored hotel record carries a `name` field,
deleting a name and then looking it up yields the empty dict: a deleted
name can no longer be retrieved. -/
theorem spec_c10_delete_then_get_empty (fs : FS) (name : String)
    (h : ∀ r ∈ load_data fs HOTEL_FILE, hasKey r "name" = true) :
    ∀ fs', delete_hotel fs name = Except.ok fs' →
      get_hotel fs' name = Except.ok (JVal.obj []) := by
  intro fs' hdel
  rw [delete_hotel_ok fs name h] at hdel
  obtain rfl := Except.ok.inj hdel
  have hkeys : ∀ r ∈ load_data (save_data fs HOTEL_FILE
      (JVal.arr ((load_data fs HOTEL_FILE).filter
        (fun r => !(fieldEqStr r "name" name))))) HOTEL_FILE,
      hasKey r "name" = true := by
    rw [load_save]
    intro r hr
    exact h r (List.mem_of_mem_filter hr)
  rw [get_hotel_ok _ name hkeys, load_save]
  have hfind : ((load_data fs HOTEL_FILE).filter
      (fun r => !(fieldEqStr r "name" name))).find?
        (fun r => fieldEqStr r "name" name) = none := by
    rw [List.find?_eq_none]
    intro x hx
    have hkept := (List.mem_filter.mp hx).2
    simp only [Bool.not_eq_true'] at hkept
    simp [hkept]
  rw [hfind]
  rfl

/-- Witness for C10: after deleting `"Hotel Pucon"` (stored twice) the
lookup of that name returns the empty dict. -/
theorem spec_c10_witness :
    (∀ r ∈ load_data fsHotels HOTEL_FILE, hasKey r "name" = true) ∧
    get_hotel (save_data fsHotels HOTEL_FILE
        (JVal.arr [(Hotel.init "Hotel Andino" "Peru" 8).to_dict])) "Hotel Pucon"
      = Except.ok (JVal.obj []) :=
  ⟨by decide, spec_c10_delete_then_get_empty fsHotels "Hotel Pucon" (by decide)
    (save_data fsHotels HOTEL_FILE
      (JVal.arr [(Hotel.init "Hotel Andino" "Peru" 8).to_dict])) rfl⟩

end HotelRes
